import Mathlib

/-!
Shallow embedding of `src/bot.py` (an anonymous-chat Telegram bot): the
user/session store, the aiogram finite-state-machine storage, the message
handlers and the dispatcher.  Identifiers follow the Python source; database
rows become Lean structures, the aiogram `MemoryStorage` becomes an explicit
function from user id to optional state, and every outbound transport call
(`message.answer`, `bot.send_message`, `bot.send_photo`, ...) is recorded as
an element of an output list, in program order.  Telegram/database integer
ids are `Int` (they are arbitrary-precision ints in Python, BIGINT in SQL).
Timestamps do not matter to any property proved here; the VIP expiry is
abstracted to a day offset.  Float coordinates of location/venue messages are
abstracted to `Int` payloads (no property inspects them).
-/

namespace GroqBot

/-- Python truthiness of an optional string column (`None` and `""` are falsy). -/
def truthyS : Option String → Bool
  | none => false
  | some s => s != ""

/-- Python truthiness of an optional integer column (`None` and `0` are falsy). -/
def truthyI : Option Int → Bool
  | none => false
  | some n => n != 0

/-- Python `a or b` for a string `a` with fallback `b` (empty string is falsy). -/
def pyOr (s d : String) : String := if s == "" then d else s

/-- Python `a or b` where `a` is an optional string (e.g. `message.from_user.username`). -/
def pyOrU (s : Option String) (d : String) : String :=
  match s with
  | none => d
  | some s => pyOr s d

/-- Characters Python `int()` strips from both ends of its argument. -/
def pySpace (c : Char) : Bool :=
  c == ' ' || (9 ≤ c.toNat && c.toNat ≤ 13)

/-- No two consecutive underscores in the digit body (Python int-literal rule). -/
def noDoubleUnd : List Char → Bool
  | [] => true
  | [_] => true
  | a :: b :: rest => !(a == '_' && b == '_') && noDoubleUnd (b :: rest)

/-- A valid Python integer-literal body: nonempty digits, underscores allowed
only between digits. -/
def validIntBody (cs : List Char) : Bool :=
  !cs.isEmpty
    && cs.all (fun c => c.isDigit || c == '_')
    && !(cs.headD '_' == '_')
    && !(cs.getLastD '_' == '_')
    && noDoubleUnd cs

/-- Numeric value of a digit body, underscores skipped. -/
def intBodyVal (cs : List Char) : Nat :=
  (cs.filter (fun c => c != '_')).foldl (fun acc c => acc * 10 + (c.toNat - 48)) 0

/-- Model of Python `int(s)` on a string: strip whitespace, optional sign,
digits with optional single underscores; `none` models a raised `ValueError`. -/
def pyParseInt (s : String) : Option Int :=
  let cs := ((s.toList.dropWhile pySpace).reverse.dropWhile pySpace).reverse
  match cs with
  | '+' :: rest => if validIntBody rest then some (intBodyVal rest) else none
  | '-' :: rest => if validIntBody rest then some (-(intBodyVal rest : Int)) else none
  | rest => if validIntBody rest then some (intBodyVal rest) else none

/-- Split a character list at a separator (kernel-reducible model of Python
`str.split(sep)` for a one-character separator; `acc` holds the current chunk
reversed). -/
def splitCharAux (sep : Char) : List Char → List Char → List String
  | [], acc => [String.mk acc.reverse]
  | c :: cs, acc =>
      if c == sep then String.mk acc.reverse :: splitCharAux sep cs []
      else splitCharAux sep cs (c :: acc)

/-- Python `s.split(sep)` for a one-character separator. -/
def splitChar (sep : Char) (s : String) : List String :=
  splitCharAux sep s.toList []

/-- Python `s.startswith(pre)`. -/
def strStartsWith (s pre : String) : Bool :=
  pre.toList.isPrefixOf s.toList

/-- A row of the `users` table (`create_tables` in bot.py). -/
structure User where
  id : Int
  username : String
  language : Option String
  gender : Option String
  continent : Option String
  age : Option Int
  is_vip : Bool
  vip_expiry : Option Int
  is_banned : Bool
  deriving DecidableEq

/-- A row of the `sessions` table. -/
structure Session where
  session_id : Int
  user1_id : Int
  user2_id : Int
  deriving DecidableEq

/-- The aiogram per-user finite-state-machine states (`class UserState`). -/
inductive UState where
  | language
  | gender
  | continent
  | age
  | profile_complete
  | in_session
  deriving DecidableEq

/-- Message content categories handled by `handle_session_messages`; payloads
are abstracted to strings / integers, `other` stands for any Telegram content
type outside the dispatch chain (dice, game, invoice, ...). -/
inductive Content where
  | text (t : String)
  | photo (fileId : String) (caption : Option String)
  | video (fileId : String) (caption : Option String)
  | document (fileId : String) (caption : Option String)
  | voice (fileId : String) (caption : Option String)
  | audio (fileId : String) (caption : Option String)
  | sticker (fileId : String)
  | animation (fileId : String) (caption : Option String)
  | videoNote (fileId : String)
  | contact (phone firstName : String) (lastName : Option String)
  | location (latitude longitude : Int)
  | poll (question : String) (options : List String)
  | venue (latitude longitude : Int) (title addr : String)
  | other (tag : String)
  deriving DecidableEq

/-- One outbound transport call, recorded in program order. -/
inductive Output where
  | sendText (chat : Int) (text : String)
  | sendPhoto (chat : Int) (fileId : String) (caption : Option String)
  | sendVideo (chat : Int) (fileId : String) (caption : Option String)
  | sendDocument (chat : Int) (fileId : String) (caption : Option String)
  | sendVoice (chat : Int) (fileId : String) (caption : Option String)
  | sendAudio (chat : Int) (fileId : String) (caption : Option String)
  | sendSticker (chat : Int) (fileId : String)
  | sendAnimation (chat : Int) (fileId : String) (caption : Option String)
  | sendVideoNote (chat : Int) (fileId : String)
  | sendContact (chat : Int) (phone firstName : String) (lastName : Option String)
  | sendLocation (chat : Int) (latitude longitude : Int)
  | sendPoll (chat : Int) (question : String) (options : List String)
  | sendVenue (chat : Int) (latitude longitude : Int) (title addr : String)
  | forwardMessage (chat : Int) (fromChat : Int) (msgId : Int)
  | editText (chat : Int) (text : String)
  | callbackAck
  deriving DecidableEq

/-- An inbound Telegram update: a message (with the sender's optional
username, content, message id and chat id) or a callback query. -/
inductive Event where
  | msg (uid : Int) (username : Option String) (content : Content) (msgId chatId : Int)
  | callback (uid chatId : Int) (data : String)
  deriving DecidableEq

/-- Whole-system state: the two database tables, the SERIAL counter for
session ids, and the aiogram MemoryStorage (per-user FSM state and the
`partner_id` entry written by `cmd_find` into the FSM data proxy). -/
structure World where
  users : List User
  sessions : List Session
  nextSessionId : Int
  fsmState : Int → Option UState
  fsmPartner : Int → Option Int

/-- Point update of the FSM state map (`UserState.x.set()` / `state.finish()`). -/
def setSt (f : Int → Option UState) (uid : Int) (v : Option UState) : Int → Option UState :=
  fun x => if x = uid then v else f x

/-- Point update of the FSM `partner_id` data entry. -/
def setPt (f : Int → Option Int) (uid : Int) (v : Option Int) : Int → Option Int :=
  fun x => if x = uid then v else f x

/-- `get_user`: SELECT * FROM users WHERE id = $1. -/
def getUser (w : World) (uid : Int) : Option User :=
  w.users.find? (fun u => u.id == uid)

/-- `create_user`: INSERT ... ON CONFLICT (id) DO NOTHING. -/
def createUser (w : World) (uid : Int) (username : String) : World :=
  if w.users.any (fun u => u.id == uid) then w
  else
    { w with users := w.users ++
        [{ id := uid, username := username, language := none, gender := none,
           continent := none, age := none, is_vip := false, vip_expiry := none,
           is_banned := false }] }

/-- The per-row effect of `update_user_profile`: each of the four UPDATE
statements runs only when the corresponding keyword argument is Python-truthy. -/
def applyProfileUpdates (language gender continent : Option String) (age : Option Int)
    (u : User) : User :=
  let u := if truthyS language then { u with language := language } else u
  let u := if truthyS gender then { u with gender := gender } else u
  let u := if truthyS continent then { u with continent := continent } else u
  let u := if truthyI age then { u with age := age } else u
  u

/-- `update_user_profile`: four UPDATE statements against WHERE id = $2. -/
def updateUserProfile (w : World) (uid : Int) (language gender continent : Option String)
    (age : Option Int) : World :=
  { w with users := w.users.map (fun u =>
      if u.id == uid then applyProfileUpdates language gender continent age u else u) }

/-- `set_vip_status`: expiry `now + months*30 days`, abstracted to the day offset. -/
def setVipStatus (w : World) (uid : Int) (months : Int) : World :=
  { w with users := w.users.map (fun u =>
      if u.id == uid then { u with is_vip := true, vip_expiry := some (months * 30) } else u) }

/-- `ban_user`: UPDATE users SET is_banned = TRUE WHERE id = $1. -/
def banUser (w : World) (uid : Int) : World :=
  { w with users := w.users.map (fun u =>
      if u.id == uid then { u with is_banned := true } else u) }

/-- `unban_user`: UPDATE users SET is_banned = FALSE WHERE id = $1. -/
def unbanUser (w : World) (uid : Int) : World :=
  { w with users := w.users.map (fun u =>
      if u.id == uid then { u with is_banned := false } else u) }

/-- `get_active_users`: SELECT * FROM users WHERE is_banned = FALSE. -/
def getActiveUsers (w : World) : List User :=
  w.users.filter (fun u => !u.is_banned)

/-- `create_session`: INSERT INTO sessions (user1_id, user2_id) VALUES ($1,$2). -/
def createSession (w : World) (user1 user2 : Int) : World :=
  { w with
      sessions := w.sessions ++ [{ session_id := w.nextSessionId, user1_id := user1, user2_id := user2 }],
      nextSessionId := w.nextSessionId + 1 }

/-- Predicate of the session queries: the row mentions `uid` in either slot. -/
def sessionHas (uid : Int) (s : Session) : Bool :=
  s.user1_id == uid || s.user2_id == uid

/-- `get_session`: SELECT * FROM sessions WHERE user1_id = $1 OR user2_id = $1. -/
def getSession (w : World) (uid : Int) : Option Session :=
  w.sessions.find? (sessionHas uid)

/-- `end_session`: look the session up, DELETE it by session_id, return it. -/
def endSession (w : World) (uid : Int) : Option Session × World :=
  match getSession w uid with
  | some s =>
      (some s, { w with sessions := w.sessions.filter (fun t => !(t.session_id == s.session_id)) })
  | none => (none, w)

-- Literal reply texts of the handlers.

def bannedText : String := "You are banned from using this bot."

def welcomeBackText : String :=
  "Welcome back! Your profile is complete. You can use /profile to edit it or /find to start a chat."

def chooseLanguageText : String :=
  "Welcome! Let\x27s set up your profile. Please choose your language:"

def chooseGenderText : String := "Please choose your gender:"

def chooseContinentText : String := "Please choose your continent:"

def enterAgeText : String := "Please enter your age (number):"

def validAgeText : String := "Please enter a valid age between 1 and 99."

def profileDoneText : String :=
  "Profile complete! You can use /profile to edit it or /find to start a chat."

def invalidAgeText : String := "Invalid age. Please enter a number."

def completeProfileFirstText : String := "Please complete your profile first using /start."

def alreadyInSessionText : String := "You are already in a chat session. Use /stop to end it."

def searchingText : String := "Searching for a partner..."

/-- Notification of `cmd_find` to each party, with the other party's stored username. -/
def foundPartnerText (username : String) : String :=
  "Found a partner! Say hello to " ++ username ++ ". Use /stop to end the chat."

def noPartnersText : String := "No partners available right now. Please try again later."

def sessionEndedText : String := "Chat session ended."

def partnerEndedText : String := "Your partner has ended the chat session."

def notInSessionText : String := "You are not in an active chat session."

def notAuthorizedText : String := "You are not authorized to use this command."

def notInSessionFindText : String :=
  "You are not in an active chat session. Use /find to start one."

def dontUnderstandText : String :=
  "I don\x27t understand that command. Please use /start to begin or /help for available commands."

def upgradeVipText : String :=
  "🔓 Upgrade to VIP (3 months):\nPay $5 via:\n\n• Payeer: P1060900640\n• Bitcoin: 14qaZcSda7az1i9FFXp92vgpj9gj4wrK8z\n\nSend payment proof to @AdminUsername"

/-- The aiogram command filter on a text message: first whitespace token,
bot-mention stripped, compared against `/cmd`. -/
def matchesCommand (text cmd : String) : Bool :=
  (((splitChar '@' ((splitChar ' ' text).headD "")).headD "")) == "/" ++ cmd

/-- `message.get_args().split()`: whitespace-separated tokens after the command. -/
def argTokens (text : String) : List String :=
  ((splitChar ' ' text).drop 1).filter (fun s => s != "")

/-- `cmd_start`: upsert the user, short-circuit when banned, greet a complete
profile with state `profile_complete`, otherwise present the language keyboard
and enter state `language`. -/
def cmdStart (w : World) (uid : Int) (username : Option String) (chat : Int) :
    World × List Output :=
  let uname := pyOrU username ("id_" ++ toString uid)
  let w1 := createUser w uid uname
  match getUser w1 uid with
  | some u =>
      if u.is_banned then (w1, [.sendText chat bannedText])
      else if truthyS u.language && truthyS u.gender && truthyS u.continent && truthyI u.age then
        ({ w1 with fsmState := setSt w1.fsmState uid (some .profile_complete) },
         [.sendText chat welcomeBackText])
      else
        ({ w1 with fsmState := setSt w1.fsmState uid (some .language) },
         [.sendText chat chooseLanguageText])
  | none =>
      ({ w1 with fsmState := setSt w1.fsmState uid (some .language) },
       [.sendText chat chooseLanguageText])

/-- `process_language`: `lang = callback_query.data.split("_")[1]`, persist it
(Python truthiness skips the UPDATE when the code is empty), advance to `gender`. -/
def processLanguage (w : World) (uid chat : Int) (data : String) : World × List Output :=
  let lang := (splitChar '_' data).getD 1 ""
  let w1 := updateUserProfile w uid (some lang) none none none
  ({ w1 with fsmState := setSt w1.fsmState uid (some .gender) },
   [.editText chat chooseGenderText, .callbackAck])

/-- `process_gender`: persist the code after `gender_`, advance to `continent`. -/
def processGender (w : World) (uid chat : Int) (data : String) : World × List Output :=
  let g := (splitChar '_' data).getD 1 ""
  let w1 := updateUserProfile w uid none (some g) none none
  ({ w1 with fsmState := setSt w1.fsmState uid (some .continent) },
   [.editText chat chooseContinentText, .callbackAck])

/-- `process_continent`: persist the code after `continent_`, advance to `age`. -/
def processContinent (w : World) (uid chat : Int) (data : String) : World × List Output :=
  let c := (splitChar '_' data).getD 1 ""
  let w1 := updateUserProfile w uid none none (some c) none
  ({ w1 with fsmState := setSt w1.fsmState uid (some .age) },
   [.editText chat enterAgeText, .callbackAck])

/-- `process_age`: `int(message.text)` (ValueError caught → re-prompt), bound
check `0 < age < 100` (failure → re-prompt, no transition), otherwise persist
and advance to `profile_complete`. -/
def processAge (w : World) (uid chat : Int) (text : String) : World × List Output :=
  match pyParseInt text with
  | some age =>
      if 0 < age ∧ age < 100 then
        let w1 := updateUserProfile w uid none none none (some age)
        ({ w1 with fsmState := setSt w1.fsmState uid (some .profile_complete) },
         [.sendText chat profileDoneText])
      else (w, [.sendText chat validAgeText])
  | none => (w, [.sendText chat invalidAgeText])

/-- The `cmd_profile` handler is truncated in the source (bot.py line 207 cuts
off inside an f-string); it reads the user row and answers a profile summary,
mutating neither store nor cursor, which is all any property here needs. -/
def cmdProfile (w : World) (uid chat : Int) : World × List Output :=
  match getUser w uid with
  | some u => (w, [.sendText chat ("Your Profile:\nLanguage: " ++ pyOrU u.language "None")])
  | none => (w, [])

/-- `cmd_upgrade`: a static advertisement, no mutation. -/
def cmdUpgrade (w : World) (chat : Int) : World × List Output :=
  (w, [.sendText chat upgradeVipText])

/-- The eligible-candidate list of `cmd_find` (bot.py lines 239-240):
non-banned users, excluding the requester, without an existing session. -/
def potentialPartners (w : World) (uid : Int) : List User :=
  (getActiveUsers w).filter (fun u => u.id != uid && (getSession w u.id).isNone)

/-- `cmd_find`: gate on a complete profile and no existing session, then pick
`random.choice(potential_partners)` — modelled by an index `r` reduced modulo
the list length (`none` exactly when the list is empty).  The source reads
`user["is_vip"]` in a branch whose body is `pass` (lines 242-245); it has no
effect and leaves no trace in the embedding. -/
def cmdFind (w : World) (uid chat : Int) (r : Nat) : World × List Output :=
  match getUser w uid with
  | none => (w, [.sendText chat completeProfileFirstText])
  | some u =>
      if !(truthyS u.language && truthyS u.gender && truthyS u.continent && truthyI u.age) then
        (w, [.sendText chat completeProfileFirstText])
      else if (getSession w uid).isSome then
        (w, [.sendText chat alreadyInSessionText])
      else
        let ps := potentialPartners w uid
        match ps.get? (r % ps.length) with
        | some partner =>
            let w1 := createSession w uid partner.id
            ({ w1 with
                 fsmState := setSt w1.fsmState uid (some .in_session),
                 fsmPartner := setPt w1.fsmPartner uid (some partner.id) },
             [.sendText chat searchingText,
              .sendText uid (foundPartnerText partner.username),
              .sendText partner.id (foundPartnerText u.username)])
        | none => (w, [.sendText chat searchingText, .sendText chat noPartnersText])

/-- `cmd_stop`: `end_session`, notify both parties, then
`UserState.profile_complete.set()` immediately followed by `state.finish()`
(which clears the state and the data proxy again). -/
def cmdStop (w : World) (uid chat : Int) : World × List Output :=
  match endSession w uid with
  | (some s, w1) =>
      let partnerId := if s.user2_id == uid then s.user1_id else s.user2_id
      let f1 := setSt w1.fsmState uid (some .profile_complete)
      let f2 := setSt f1 uid none
      ({ w1 with fsmState := f2, fsmPartner := setPt w1.fsmPartner uid none },
       [.sendText uid sessionEndedText, .sendText partnerId partnerEndedText])
  | (none, w1) => (w1, [.sendText chat notInSessionText])

/-- `cmd_ban`: admin-gated, parse the first argument, set the flag. -/
def cmdBan (adminId : Int) (w : World) (uid chat : Int) (text : String) :
    World × List Output :=
  if uid != adminId then (w, [.sendText chat notAuthorizedText])
  else
    match (argTokens text).head? with
    | none => (w, [.sendText chat "Usage: /ban <user_id>"])
    | some t =>
        match pyParseInt t with
        | none => (w, [.sendText chat "Usage: /ban <user_id>"])
        | some n =>
            (banUser w n, [.sendText chat ("User " ++ toString n ++ " has been banned.")])

/-- `cmd_unban`: admin-gated, parse the first argument, clear the flag. -/
def cmdUnban (adminId : Int) (w : World) (uid chat : Int) (text : String) :
    World × List Output :=
  if uid != adminId then (w, [.sendText chat notAuthorizedText])
  else
    match (argTokens text).head? with
    | none => (w, [.sendText chat "Usage: /unban <user_id>"])
    | some t =>
        match pyParseInt t with
        | none => (w, [.sendText chat "Usage: /unban <user_id>"])
        | some n =>
            (unbanUser w n, [.sendText chat ("User " ++ toString n ++ " has been unbanned.")])

/-- `cmd_vip`: admin-gated, parse both arguments before mutating. -/
def cmdVip (adminId : Int) (w : World) (uid chat : Int) (text : String) :
    World × List Output :=
  if uid != adminId then (w, [.sendText chat notAuthorizedText])
  else
    let args := argTokens text
    match args.head?, (args.drop 1).head? with
    | some t0, some t1 =>
        (match pyParseInt t0, pyParseInt t1 with
         | some n, some months =>
             (setVipStatus w n months,
              [.sendText chat ("User " ++ toString n ++ " has been granted VIP status for "
                 ++ toString months ++ " months.")])
         | _, _ => (w, [.sendText chat "Usage: /vip <user_id> <months>"]))
    | _, _ => (w, [.sendText chat "Usage: /vip <user_id> <months>"])

/-- `cmd_stats`: admin-gated count of non-banned users. -/
def cmdStats (adminId : Int) (w : World) (uid chat : Int) : World × List Output :=
  if uid != adminId then (w, [.sendText chat notAuthorizedText])
  else (w, [.sendText chat ("Currently " ++ toString (getActiveUsers w).length ++ " active users.")])

/-- The partner-facing forward of `handle_session_messages`: one category-matched
transport call, nothing at all for an unmatched category (the `if`/`elif` chain
has no final `else`). -/
def relayContent (partnerId : Int) : Content → List Output
  | .text t => [.sendText partnerId t]
  | .photo f c => [.sendPhoto partnerId f c]
  | .video f c => [.sendVideo partnerId f c]
  | .document f c => [.sendDocument partnerId f c]
  | .voice f c => [.sendVoice partnerId f c]
  | .audio f c => [.sendAudio partnerId f c]
  | .sticker f => [.sendSticker partnerId f]
  | .animation f c => [.sendAnimation partnerId f c]
  | .videoNote f => [.sendVideoNote partnerId f]
  | .contact p fn ln => [.sendContact partnerId p fn ln]
  | .location la lo => [.sendLocation partnerId la lo]
  | .poll q os => [.sendPoll partnerId q os]
  | .venue la lo t a => [.sendVenue partnerId la lo t a]
  | .other _ => []

/-- `handle_session_messages`: look the session up, compute the counterpart,
forward the content to it, then mirror to TARGET_GROUP_ID — annotated text for
text messages, `forward_message` of the original for everything else.  When the
counterpart row is absent the source would raise on a `None` subscript before
any send; that unreachable branch is modelled as producing no outputs. -/
def handleSessionMessages (targetGroupId : Int) (w : World) (uid : Int)
    (username : Option String) (content : Content) (msgId chat : Int) :
    World × List Output :=
  match getSession w uid with
  | none => (w, [.sendText chat notInSessionFindText])
  | some s =>
      let partnerId := if s.user2_id == uid then s.user1_id else s.user2_id
      let userInfo := "User:" ++ toString uid ++ " @" ++ pyOrU username ("id_" ++ toString uid)
      match getUser w partnerId with
      | none => (w, [])
      | some pu =>
          let partnerInfo :=
            "Partner:" ++ toString pu.id ++ " @" ++ pyOr pu.username ("id_" ++ toString pu.id)
          let mirror : List Output :=
            match content with
            | .text t => [.sendText targetGroupId (userInfo ++ " → " ++ partnerInfo ++ ":\n" ++ t)]
            | _ => [.forwardMessage targetGroupId chat msgId]
          (w, relayContent partnerId content ++ mirror)

/-- `handle_all_messages`: the catch-all fallback. -/
def handleAllMessages (w : World) (chat : Int) : World × List Output :=
  (w, [.sendText chat dontUnderstandText])

/-- The aiogram dispatcher: handlers are tried in registration order; command
handlers only match text messages; `cmd_find` requires state `profile_complete`
and `cmd_stop` state `in_session`; `process_age` matches any text in state
`age`; callback handlers pair a data-prefix filter with a state filter.
`r` feeds the `random.choice` of `cmd_find`. -/
def dispatch (adminId targetGroupId : Int) (w : World) (e : Event) (r : Nat) :
    World × List Output :=
  match e with
  | .callback uid chat data =>
      if w.fsmState uid = some .language && strStartsWith data "lang_" then
        processLanguage w uid chat data
      else if w.fsmState uid = some .gender && strStartsWith data "gender_" then
        processGender w uid chat data
      else if w.fsmState uid = some .continent && strStartsWith data "continent_" then
        processContinent w uid chat data
      else (w, [])
  | .msg uid username content msgId chat =>
      let st := w.fsmState uid
      match content with
      | .text t =>
          if matchesCommand t "start" then cmdStart w uid username chat
          else if st = some .age then processAge w uid chat t
          else if matchesCommand t "profile" then cmdProfile w uid chat
          else if matchesCommand t "upgrade" then cmdUpgrade w chat
          else if matchesCommand t "find" && st = some .profile_complete then
            cmdFind w uid chat r
          else if matchesCommand t "stop" && st = some .in_session then
            cmdStop w uid chat
          else if matchesCommand t "ban" then cmdBan adminId w uid chat t
          else if matchesCommand t "unban" then cmdUnban adminId w uid chat t
          else if matchesCommand t "vip" then cmdVip adminId w uid chat t
          else if matchesCommand t "stats" then cmdStats adminId w uid chat
          else if st = some .in_session then
            handleSessionMessages targetGroupId w uid username content msgId chat
          else handleAllMessages w chat
      | _ =>
          if st = some .in_session then
            handleSessionMessages targetGroupId w uid username content msgId chat
          else handleAllMessages w chat

/-- A fresh deployment: given user rows, no sessions, SERIAL at 1, empty
MemoryStorage. -/
def initWorld (users : List User) : World :=
  { users := users, sessions := [], nextSessionId := 1,
    fsmState := fun _ => none, fsmPartner := fun _ => none }

/-- Run a sequence of inbound events (each with its random draw) through the
dispatcher, keeping the final state. -/
def runEvents (adminId targetGroupId : Int) (w : World) (es : List (Event × Nat)) : World :=
  es.foldl (fun w er => (dispatch adminId targetGroupId w er.1 er.2).1) w

/-- Number of session rows mentioning user `v`. -/
def userSessionCount (ss : List Session) (v : Int) : Nat :=
  (ss.filter (sessionHas v)).length

/-- The session-store invariant of the spec: at most one session row per user,
and no row pairs a user with itself. -/
def SessionsOK (ss : List Session) : Prop :=
  (∀ v : Int, userSessionCount ss v ≤ 1) ∧ ∀ s ∈ ss, s.user1_id ≠ s.user2_id

/-- Following the spec's words, for comparison with `potentialPartners`: the
eligible candidate set is all non-banned users excluding the requester,
filtered to those currently without a session. -/
def eligibleSpec (w : World) (uid : Int) : List User :=
  w.users.filter (fun u => !u.is_banned && (u.id != uid && (getSession w u.id).isNone))

/-- Flip exactly the requester's `is_vip` column (for the VIP non-interference
property). -/
def setUserVip (w : World) (uid : Int) (b : Bool) : World :=
  { w with users := w.users.map (fun u => if u.id == uid then { u with is_vip := b } else u) }

/-- Profile fields are populated bottom-up: age only after continent, continent
only after gender, gender only after language. -/
def fieldChain (u : User) : Prop :=
  (truthyI u.age = true → truthyS u.continent = true)
  ∧ (truthyS u.continent = true → truthyS u.gender = true)
  ∧ (truthyS u.gender = true → truthyS u.language = true)

/-- All four onboarding fields populated (the code's profile-complete check). -/
def profileFull (u : User) : Prop :=
  truthyS u.language = true ∧ truthyS u.gender = true
    ∧ truthyS u.continent = true ∧ truthyI u.age = true

/-- What each onboarding cursor position guarantees about the stored row. -/
def cursorOK (w : World) (uid : Int) : Prop :=
  match w.fsmState uid with
  | none => True
  | some .language => ∃ u, getUser w uid = some u
  | some .gender => ∃ u, getUser w uid = some u ∧ truthyS u.language = true
  | some .continent =>
      ∃ u, getUser w uid = some u ∧ truthyS u.language = true ∧ truthyS u.gender = true
  | some .age =>
      ∃ u, getUser w uid = some u ∧ truthyS u.language = true ∧ truthyS u.gender = true
        ∧ truthyS u.continent = true
  | some .profile_complete => ∃ u, getUser w uid = some u ∧ profileFull u
  | some .in_session => ∃ u, getUser w uid = some u ∧ profileFull u

/-- A callback payload is well formed when a recognised prefix is followed by a
nonempty code — true of every keyboard-generated callback of the bot. -/
def goodData (data : String) : Bool :=
  !(strStartsWith data "lang_" || strStartsWith data "gender_" || strStartsWith data "continent_")
    || ((splitChar '_' data).getD 1 "" != "")

/-- An event is well formed when any callback payload in it is. -/
def goodEvent : Event → Bool
  | .callback _ _ data => goodData data
  | .msg _ _ _ _ _ => true

/-- Pairwise-distinct user ids (what the `id` PRIMARY KEY enforces). -/
def idsDistinct (l : List User) : Prop := l.Pairwise (fun a b => a.id ≠ b.id)

/-- The onboarding invariant: distinct ids, bottom-up profile population, and
each cursor position backed by the row facts it promises. -/
def OnboardInv (w : World) : Prop :=
  idsDistinct w.users ∧ (∀ u ∈ w.users, fieldChain u) ∧ ∀ uid, cursorOK w uid

-- Concrete scenario data used by counterexamples and witnesses.

/-- A profile-complete, unbanned user with id 1. -/
def demoUserA : User :=
  { id := 1, username := "alice", language := some "en", gender := some "Male",
    continent := some "AS", age := some 25, is_vip := false, vip_expiry := none,
    is_banned := false }

/-- A profile-complete, unbanned user with id 2. -/
def demoUserB : User :=
  { id := 2, username := "bob", language := some "ar", gender := some "Female",
    continent := some "EU", age := some 30, is_vip := false, vip_expiry := none,
    is_banned := false }

def demoAdminId : Int := 999

def demoGroupId : Int := -500

/-- Both demo users have issued `/start`: cursors at `profile_complete`. -/
def demoReady : World :=
  runEvents demoAdminId demoGroupId (initWorld [demoUserA, demoUserB])
    [(.msg 1 (some "alice") (.text "/start") 11 1, 0),
     (.msg 2 (some "bob") (.text "/start") 12 2, 0)]

/-- User 1 issues `/find` (random draw 0) and is paired with user 2. -/
def demoFindRes : World × List Output :=
  dispatch demoAdminId demoGroupId demoReady (.msg 1 (some "alice") (.text "/find") 13 1) 0

def demoPaired : World := demoFindRes.1

/-- User 1 issues `/stop` while paired. -/
def demoStopRes : World × List Output :=
  dispatch demoAdminId demoGroupId demoPaired (.msg 1 (some "alice") (.text "/stop") 16 1) 0

/-- User 1 issues `/stop` a second time. -/
def demoStop2Res : World × List Output :=
  dispatch demoAdminId demoGroupId demoStopRes.1 (.msg 1 (some "alice") (.text "/stop") 17 1) 0

/-- A fresh user onboards but the language callback carries an empty code. -/
def demoBadRun : World :=
  runEvents demoAdminId demoGroupId (initWorld [])
    [(.msg 7 (some "eve") (.text "/start") 21 7, 0),
     (.callback 7 7 "lang_", 0),
     (.callback 7 7 "gender_Male", 0),
     (.callback 7 7 "continent_AS", 0),
     (.msg 7 (some "eve") (.text "30") 22 7, 0)]

/-- A fully well-formed onboarding run for a fresh user with id 5. -/
def demoGoodEvs : List (Event × Nat) :=
  [(.msg 5 (some "carol") (.text "/start") 31 5, 0),
   (.callback 5 5 "lang_en", 0),
   (.callback 5 5 "gender_Female", 0),
   (.callback 5 5 "continent_EU", 0),
   (.msg 5 (some "carol") (.text "25") 32 5, 0)]

def demoGoodRun : World := runEvents demoAdminId demoGroupId (initWorld []) demoGoodEvs

-- Session-store invariant (claim C1) -------------------------------------------------

lemma count_eq_zero_of_find?_none {ss : List Session} {v : Int}
    (h : ss.find? (sessionHas v) = none) : userSessionCount ss v = 0 := by
  unfold userSessionCount
  rw [List.length_eq_zero, List.filter_eq_nil_iff]
  rw [List.find?_eq_none] at h
  exact h

lemma sessionsOK_insert {ss : List Session} {n uid pid : Int}
    (h1 : ss.find? (sessionHas uid) = none) (h2 : ss.find? (sessionHas pid) = none)
    (hne : pid ≠ uid) (hok : SessionsOK ss) :
    SessionsOK (ss ++ [{ session_id := n, user1_id := uid, user2_id := pid }]) := by
  obtain ⟨hc, hd⟩ := hok
  constructor
  · intro v
    unfold userSessionCount
    rw [List.filter_append, List.length_append]
    by_cases hv1 : v = uid
    · subst hv1
      have h0 : userSessionCount ss v = 0 := count_eq_zero_of_find?_none h1
      unfold userSessionCount at h0
      rw [h0]
      simpa using List.length_filter_le _ _
    · by_cases hv2 : v = pid
      · subst hv2
        have h0 : userSessionCount ss v = 0 := count_eq_zero_of_find?_none h2
        unfold userSessionCount at h0
        rw [h0]
        simpa using List.length_filter_le _ _
      · have hnew : sessionHas v { session_id := n, user1_id := uid, user2_id := pid } = false := by
          simp [sessionHas]
          exact ⟨fun h => absurd h.symm hv1, fun h => absurd h.symm hv2⟩
        rw [List.filter_singleton, hnew]
        simpa using hc v
  · intro s hs
    rcases List.mem_append.mp hs with h | h
    · exact hd s h
    · have : s = { session_id := n, user1_id := uid, user2_id := pid } := by
        simpa using h
      rw [this]
      exact fun hh => hne hh.symm

lemma sessionsOK_filter {ss : List Session} (q : Session → Bool) (hok : SessionsOK ss) :
    SessionsOK (ss.filter q) := by
  constructor
  · intro v
    unfold userSessionCount
    calc ((ss.filter q).filter (sessionHas v)).length
        ≤ (ss.filter (sessionHas v)).length :=
          List.Sublist.length_le (List.Sublist.filter _ (List.filter_sublist ss))
      _ ≤ 1 := hok.1 v
  · intro s hs
    exact hok.2 s (List.mem_of_mem_filter hs)

lemma sessions_createUser (w : World) (uid : Int) (un : String) :
    (createUser w uid un).sessions = w.sessions := by
  unfold createUser
  split <;> rfl

lemma sessions_updateUserProfile (w : World) (uid : Int) (l g c : Option String) (a : Option Int) :
    (updateUserProfile w uid l g c a).sessions = w.sessions := rfl

lemma fst_cmdStart_sessions (w : World) (uid : Int) (un : Option String) (chat : Int) :
    ((cmdStart w uid un chat).1).sessions = w.sessions := by
  unfold cmdStart
  dsimp only
  split <;> (try split_ifs) <;> simp [sessions_createUser]

lemma fst_processLanguage_sessions (w : World) (uid chat : Int) (data : String) :
    ((processLanguage w uid chat data).1).sessions = w.sessions := rfl

lemma fst_processGender_sessions (w : World) (uid chat : Int) (data : String) :
    ((processGender w uid chat data).1).sessions = w.sessions := rfl

lemma fst_processContinent_sessions (w : World) (uid chat : Int) (data : String) :
    ((processContinent w uid chat data).1).sessions = w.sessions := rfl

lemma fst_processAge_sessions (w : World) (uid chat : Int) (t : String) :
    ((processAge w uid chat t).1).sessions = w.sessions := by
  unfold processAge
  split <;> [skip; rfl]
  split_ifs <;> rfl

lemma fst_cmdProfile_sessions (w : World) (uid chat : Int) :
    ((cmdProfile w uid chat).1).sessions = w.sessions := by
  unfold cmdProfile
  split <;> rfl

lemma fst_cmdBan_sessions (adminId : Int) (w : World) (uid chat : Int) (t : String) :
    ((cmdBan adminId w uid chat t).1).sessions = w.sessions := by
  unfold cmdBan
  split_ifs with h
  · rfl
  · split
    · rfl
    · split <;> rfl

lemma fst_cmdUnban_sessions (adminId : Int) (w : World) (uid chat : Int) (t : String) :
    ((cmdUnban adminId w uid chat t).1).sessions = w.sessions := by
  unfold cmdUnban
  split_ifs with h
  · rfl
  · split
    · rfl
    · split <;> rfl

lemma fst_cmdVip_sessions (adminId : Int) (w : World) (uid chat : Int) (t : String) :
    ((cmdVip adminId w uid chat t).1).sessions = w.sessions := by
  unfold cmdVip
  dsimp only
  split_ifs with h
  · rfl
  · split
    · split <;> rfl
    · rfl

lemma fst_cmdStats_sessions (adminId : Int) (w : World) (uid chat : Int) :
    ((cmdStats adminId w uid chat).1).sessions = w.sessions := by
  unfold cmdStats
  split_ifs <;> rfl

lemma fst_handleSessionMessages (tg : Int) (w : World) (uid : Int) (un : Option String)
    (content : Content) (msgId chat : Int) :
    (handleSessionMessages tg w uid un content msgId chat).1 = w := by
  unfold handleSessionMessages
  dsimp only
  split
  · rfl
  · split <;> rfl

lemma sessionsOK_cmdFind {w : World} (uid chat : Int) (r : Nat)
    (hok : SessionsOK w.sessions) :
    SessionsOK ((cmdFind w uid chat r).1.sessions) := by
  unfold cmdFind
  split
  · exact hok
  · split_ifs with h1 h2
    · exact hok
    · exact hok
    · dsimp only
      split
      case _ partner hp =>
        have hmem : partner ∈ potentialPartners w uid := by
          have := List.get?_eq_some.mp hp
          obtain ⟨hlt, hget⟩ := this
          exact hget ▸ List.get_mem _ _ _
        have hprop := (List.mem_filter.mp hmem).2
        rw [Bool.and_eq_true] at hprop
        have hpid : partner.id ≠ uid := by
          have := hprop.1
          simpa [bne_iff_ne] using this
        have hpn : getSession w partner.id = none := by
          have := hprop.2
          simpa [Option.isNone_iff_eq_none] using this
        have hun : getSession w uid = none := by
          simpa [Option.not_isSome_iff_eq_none] using h2
        unfold getSession at hun hpn
        simpa [createSession] using
          sessionsOK_insert (n := w.nextSessionId) hun hpn hpid hok
      case _ => exact hok

lemma sessionsOK_cmdStop {w : World} (uid chat : Int) (hok : SessionsOK w.sessions) :
    SessionsOK ((cmdStop w uid chat).1.sessions) := by
  unfold cmdStop endSession
  split
  case _ s w1 heq =>
    split at heq
    · cases heq
      exact sessionsOK_filter _ hok
    · cases heq
  case _ w1 heq =>
    split at heq
    · cases heq
    · cases heq
      exact hok

set_option maxHeartbeats 1600000 in
lemma sessionsOK_dispatch (adminId tg : Int) {w : World} (e : Event) (r : Nat)
    (hok : SessionsOK w.sessions) :
    SessionsOK ((dispatch adminId tg w e r).1.sessions) := by
  unfold dispatch
  cases e with
  | callback uid chat data =>
      dsimp only
      split_ifs
      · rw [fst_processLanguage_sessions]; exact hok
      · rw [fst_processGender_sessions]; exact hok
      · rw [fst_processContinent_sessions]; exact hok
      · exact hok
  | msg uid un content msgId chat =>
      dsimp only
      cases content with
      | text t =>
          dsimp only
          split_ifs
          · rw [fst_cmdStart_sessions]; exact hok
          · rw [fst_processAge_sessions]; exact hok
          · rw [fst_cmdProfile_sessions]; exact hok
          · exact hok
          · exact sessionsOK_cmdFind uid chat r hok
          · exact sessionsOK_cmdStop uid chat hok
          · rw [fst_cmdBan_sessions]; exact hok
          · rw [fst_cmdUnban_sessions]; exact hok
          · rw [fst_cmdVip_sessions]; exact hok
          · rw [fst_cmdStats_sessions]; exact hok
          · rw [fst_handleSessionMessages]; exact hok
          · exact hok
      | photo f c =>
          dsimp only
          split_ifs <;> first | (rw [fst_handleSessionMessages]; exact hok) | exact hok
      | video f c =>
          dsimp only
          split_ifs <;> first | (rw [fst_handleSessionMessages]; exact hok) | exact hok
      | document f c =>
          dsimp only
          split_ifs <;> first | (rw [fst_handleSessionMessages]; exact hok) | exact hok
      | voice f c =>
          dsimp only
          split_ifs <;> first | (rw [fst_handleSessionMessages]; exact hok) | exact hok
      | audio f c =>
          dsimp only
          split_ifs <;> first | (rw [fst_handleSessionMessages]; exact hok) | exact hok
      | sticker f =>
          dsimp only
          split_ifs <;> first | (rw [fst_handleSessionMessages]; exact hok) | exact hok
      | animation f c =>
          dsimp only
          split_ifs <;> first | (rw [fst_handleSessionMessages]; exact hok) | exact hok
      | videoNote f =>
          dsimp only
          split_ifs <;> first | (rw [fst_handleSessionMessages]; exact hok) | exact hok
      | contact p fn ln =>
          dsimp only
          split_ifs <;> first | (rw [fst_handleSessionMessages]; exact hok) | exact hok
      | location la lo =>
          dsimp only
          split_ifs <;> first | (rw [fst_handleSessionMessages]; exact hok) | exact hok
      | poll q os =>
          dsimp only
          split_ifs <;> first | (rw [fst_handleSessionMessages]; exact hok) | exact hok
      | venue la lo ti ad =>
          dsimp only
          split_ifs <;> first | (rw [fst_handleSessionMessages]; exact hok) | exact hok
      | other tag =>
          dsimp only
          split_ifs <;> first | (rw [fst_handleSessionMessages]; exact hok) | exact hok

lemma sessionsOK_runEvents (adminId tg : Int) {w : World} (es : List (Event × Nat))
    (hok : SessionsOK w.sessions) :
    SessionsOK ((runEvents adminId tg w es).sessions) := by
  induction es generalizing w with
  | nil => exact hok
  | cons e es ih =>
      exact ih (sessionsOK_dispatch adminId tg e.1 e.2 hok)

/-- C1: in every reachable state of the session store — any sequence of
dispatched events (so in particular any interleaving of find/create-session
and stop/end-session operations) from a fresh deployment — each user id is
mentioned by at most one session row, and no session row has equal
participant slots. -/
theorem at_most_one_session_per_user (adminId tg : Int) (users : List User)
    (es : List (Event × Nat)) :
    (∀ v : Int, userSessionCount (runEvents adminId tg (initWorld users) es).sessions v ≤ 1)
    ∧ ∀ s ∈ (runEvents adminId tg (initWorld users) es).sessions,
        s.user1_id ≠ s.user2_id := by
  have h0 : SessionsOK (initWorld users).sessions := by
    constructor
    · intro v
      simp [initWorld, userSessionCount]
    · intro s hs
      simp [initWorld] at hs
  exact sessionsOK_runEvents adminId tg es h0

-- Matchmaking side effects (claim C2) -----------------------------------------------

/-- C2: on a successful find the code creates exactly one session pairing the
requester with the candidate and notifies both parties with the other party's
username — but it transitions only the requester's cursor to `in_session`; the
candidate's cursor stays at `profile_complete`.  Concretely: users 1 and 2 are
profile-complete, user 1 issues `/find` and is paired with user 2. -/
theorem find_success_cursor_divergence :
    demoPaired.sessions = [{ session_id := 1, user1_id := 1, user2_id := 2 }]
    ∧ demoFindRes.2 = [.sendText 1 searchingText,
        .sendText 1 (foundPartnerText "bob"), .sendText 2 (foundPartnerText "alice")]
    ∧ demoPaired.fsmState 1 = some .in_session
    ∧ demoPaired.fsmState 2 = some .profile_complete := by decide

-- Session termination (claim C3) ----------------------------------------------------

/-- C3: at the store level `end_session` is idempotent (first call returns the
session and removes it, second call returns none), and the first `/stop`
notifies both parties — but the requester's cursor ends cleared (`state.finish()`
immediately after `profile_complete.set()`), the candidate's cursor was never
at `in_session`, and the second `/stop` is answered by the catch-all fallback,
not by the NotInSession message. -/
theorem stop_twice_divergence :
    (endSession demoPaired 1).1 = some { session_id := 1, user1_id := 1, user2_id := 2 }
    ∧ (endSession (endSession demoPaired 1).2 1).1 = none
    ∧ demoStopRes.2 = [.sendText 1 sessionEndedText, .sendText 2 partnerEndedText]
    ∧ demoStopRes.1.fsmState 1 = none
    ∧ demoStopRes.1.fsmState 2 = some .profile_complete
    ∧ demoStop2Res.2 = [.sendText 1 dontUnderstandText] := by decide

-- Message relay (claim C6) ----------------------------------------------------------

/-- C6: when the session requester (cursor `in_session`) sends a text, exactly
one copy is delivered to the partner and exactly one annotated moderation entry
referencing both parties is produced; but when the matched candidate — equally
paired in the session store — sends a text, the dispatcher routes it to the
catch-all fallback (the candidate's cursor never reached `in_session`) and
nothing is delivered or mirrored at all. -/
theorem relay_bypasses_candidate :
    (dispatch demoAdminId demoGroupId demoPaired (.msg 1 (some "alice") (.text "hi") 14 1) 0).2
      = [.sendText 2 "hi",
         .sendText demoGroupId ("User:1 @alice → Partner:2 @bob:\nhi")]
    ∧ getSession demoPaired 2 = some { session_id := 1, user1_id := 1, user2_id := 2 }
    ∧ (dispatch demoAdminId demoGroupId demoPaired (.msg 2 (some "bob") (.text "yo") 15 2) 0).2
      = [.sendText 2 dontUnderstandText] := by decide

-- Partner selection (claim C4) ------------------------------------------------------

/-- C7 counterexample: a callback whose payload is the bare prefix `lang_`
advances the cursor without persisting a language (Python truthiness skips the
UPDATE for an empty string), so a fresh user reaches `profile_complete` with
language never set. -/
theorem onboarding_skip_counterexample :
    demoBadRun.fsmState 7 = some .profile_complete
    ∧ (getUser demoBadRun 7).map (fun u => u.language) = some none
    ∧ (getUser demoBadRun 7).map (fun u => u.age) = some (some 30) := by decide

lemma mem_of_choice {w : World} {uid : Int} {r : Nat} {partner : User}
    (h : (potentialPartners w uid).get? (r % (potentialPartners w uid).length) = some partner) :
    partner ∈ potentialPartners w uid := by
  obtain ⟨hlt, hget⟩ := List.get?_eq_some.mp h
  exact hget ▸ List.get_mem _ _ _

/-- C4: the partner chosen by `random.choice(potential_partners)` (modelled as
any index into the candidate list) is never banned, never already sessioned and
never the requester; the candidate list is exactly the spec's eligible set; and
every member of that set is reached by some random draw. -/
theorem find_partner_eligible (w : World) (uid : Int) (r : Nat) (partner : User)
    (h : (potentialPartners w uid).get? (r % (potentialPartners w uid).length) = some partner) :
    partner.is_banned = false
    ∧ getSession w partner.id = none
    ∧ partner.id ≠ uid
    ∧ potentialPartners w uid = eligibleSpec w uid
    ∧ ∀ c ∈ potentialPartners w uid, ∃ rr : Nat,
        (potentialPartners w uid).get? (rr % (potentialPartners w uid).length) = some c := by
  have hmem : partner ∈ potentialPartners w uid := mem_of_choice h
  unfold potentialPartners getActiveUsers at hmem
  obtain ⟨hm1, hp2⟩ := List.mem_filter.mp hmem
  obtain ⟨hmu, hp1⟩ := List.mem_filter.mp hm1
  rw [Bool.and_eq_true] at hp2
  refine ⟨?_, ?_, ?_, ?_, ?_⟩
  · simpa using hp1
  · simpa [Option.isNone_iff_eq_none] using hp2.2
  · simpa [bne_iff_ne] using hp2.1
  · unfold potentialPartners getActiveUsers eligibleSpec
    rw [List.filter_filter]
    refine List.filter_congr ?_
    intro a _
    exact Bool.and_comm _ _
  · intro c hc
    obtain ⟨i, hgi⟩ := List.mem_iff_get.mp hc
    refine ⟨i.val, ?_⟩
    rw [Nat.mod_eq_of_lt i.isLt, List.get?_eq_get i.isLt]
    exact congrArg some hgi

/-- Witness for `find_partner_eligible`: in the demo world user 1's candidate
list is `[demoUserB]` and draw 0 selects it. -/
theorem find_partner_eligible_witness :
    ((potentialPartners demoReady 1).get? (0 % (potentialPartners demoReady 1).length)
        = some demoUserB)
    ∧ (demoUserB.is_banned = false
       ∧ getSession demoReady demoUserB.id = none
       ∧ demoUserB.id ≠ 1
       ∧ potentialPartners demoReady 1 = eligibleSpec demoReady 1
       ∧ ∀ c ∈ potentialPartners demoReady 1, ∃ rr : Nat,
           (potentialPartners demoReady 1).get? (rr % (potentialPartners demoReady 1).length)
             = some c) :=
  ⟨by decide, find_partner_eligible demoReady 1 0 demoUserB (by decide)⟩

-- Unsupported content (claim C8) ----------------------------------------------------

/-- C8: an in-session message of an unsupported content category produces
exactly one transport call — the moderation-group forward of the original — so
nothing is forwarded to the partner, nothing is answered to the sender, and the
whole world state is untouched (no error path). -/
theorem unsupported_content_dropped (adminId tg : Int) (w : World) (uid : Int)
    (un : Option String) (tag : String) (mid chat : Int) (r : Nat) (s : Session) (pu : User)
    (hst : w.fsmState uid = some .in_session)
    (hs : getSession w uid = some s)
    (hpu : getUser w (if s.user2_id == uid then s.user1_id else s.user2_id) = some pu) :
    (dispatch adminId tg w (.msg uid un (.other tag) mid chat) r).2
        = [.forwardMessage tg chat mid]
    ∧ (dispatch adminId tg w (.msg uid un (.other tag) mid chat) r).1 = w := by
  unfold dispatch
  dsimp only
  rw [if_pos hst]
  unfold handleSessionMessages
  dsimp only
  rw [hs]
  dsimp only
  rw [hpu]
  exact ⟨rfl, rfl⟩

/-- Witness for `unsupported_content_dropped` at the demo pairing. -/
theorem unsupported_content_dropped_witness :
    (demoPaired.fsmState 1 = some .in_session
     ∧ getSession demoPaired 1 = some { session_id := 1, user1_id := 1, user2_id := 2 })
    ∧ ((dispatch demoAdminId demoGroupId demoPaired (.msg 1 (some "alice") (.other "dice") 77 1) 0).2
        = [.forwardMessage demoGroupId 1 77]
       ∧ (dispatch demoAdminId demoGroupId demoPaired
            (.msg 1 (some "alice") (.other "dice") 77 1) 0).1 = demoPaired) :=
  ⟨⟨by decide, by decide⟩,
   unsupported_content_dropped demoAdminId demoGroupId demoPaired 1 (some "alice") "dice" 77 1 0
     { session_id := 1, user1_id := 1, user2_id := 2 } demoUserB
     (by decide) (by decide) (by decide)⟩

-- Age validation (claim C5) ---------------------------------------------------------

lemma find?_map_id_pres (l : List User) (f : User → User) (hf : ∀ u, (f u).id = u.id)
    (x : Int) :
    (l.map f).find? (fun u => u.id == x) = (l.find? (fun u => u.id == x)).map f := by
  induction l with
  | nil => rfl
  | cons a l ih =>
      rw [List.map_cons]
      cases h : (a.id == x) with
      | true =>
          have h2 : ((f a).id == x) = true := by rw [hf a]; exact h
          rw [List.find?_cons, List.find?_cons, h, h2]
          rfl
      | false =>
          have h2 : ((f a).id == x) = false := by rw [hf a]; exact h
          rw [List.find?_cons, List.find?_cons, h, h2]
          exact ih

lemma applyProfileUpdates_id (l g c : Option String) (a : Option Int) (u : User) :
    (applyProfileUpdates l g c a u).id = u.id := by
  unfold applyProfileUpdates
  dsimp only
  split_ifs <;> rfl

lemma getUser_updateUserProfile (w : World) (uid : Int) (l g c : Option String)
    (a : Option Int) (x : Int) :
    getUser (updateUserProfile w uid l g c a) x
      = (getUser w x).map
          (fun u => if u.id == uid then applyProfileUpdates l g c a u else u) := by
  unfold getUser updateUserProfile
  dsimp only
  refine find?_map_id_pres w.users _ ?_ x
  intro u
  by_cases h : (u.id == uid) = true
  · rw [if_pos h, applyProfileUpdates_id]
  · rw [if_neg h]

lemma getUser_found_id {w : World} {x : Int} {u : User} (h : getUser w x = some u) :
    (u.id == x) = true := by
  unfold getUser at h
  exact @List.find?_some _ (fun u : User => u.id == x) u w.users h

/-- C5: the age step re-prompts and changes neither the stored rows nor any
cursor when the input does not parse as an integer or parses outside the
exclusive bounds (0,100); otherwise it persists exactly the age on the
requester's row and advances the requester's cursor to `profile_complete`. -/
theorem age_step_validation (w : World) (uid chat : Int) (t : String) :
    match pyParseInt t with
    | none =>
        (processAge w uid chat t).1.users = w.users
        ∧ (∀ x, (processAge w uid chat t).1.fsmState x = w.fsmState x)
        ∧ (processAge w uid chat t).2 = [.sendText chat invalidAgeText]
    | some a =>
        if 0 < a ∧ a < 100 then
          getUser (processAge w uid chat t).1 uid
              = (getUser w uid).map (fun u => { u with age := some a })
          ∧ (∀ x, x ≠ uid → getUser (processAge w uid chat t).1 x = getUser w x)
          ∧ (processAge w uid chat t).1.fsmState uid = some .profile_complete
          ∧ (∀ x, x ≠ uid → (processAge w uid chat t).1.fsmState x = w.fsmState x)
          ∧ (processAge w uid chat t).2 = [.sendText chat profileDoneText]
        else
          (processAge w uid chat t).1.users = w.users
          ∧ (∀ x, (processAge w uid chat t).1.fsmState x = w.fsmState x)
          ∧ (processAge w uid chat t).2 = [.sendText chat validAgeText] := by
  cases hp : pyParseInt t with
  | none =>
      unfold processAge
      rw [hp]
      exact ⟨rfl, fun x => rfl, rfl⟩
  | some a =>
      unfold processAge
      rw [hp]
      dsimp only
      by_cases hb : 0 < a ∧ a < 100
      · rw [if_pos hb, if_pos hb]
        have htr : truthyI (some a) = true := by
          show (a != 0) = true
          simp only [bne_iff_ne, ne_eq]
          omega
        have happ : ∀ u : User,
            applyProfileUpdates none none none (some a) u = { u with age := some a } := by
          intro u
          unfold applyProfileUpdates
          dsimp only
          rw [htr]
          simp [truthyS]
        refine ⟨?_, ?_, ?_, ?_, rfl⟩
        · show getUser (updateUserProfile w uid none none none (some a)) uid
            = (getUser w uid).map (fun u => { u with age := some a })
          rw [getUser_updateUserProfile]
          cases hgu : getUser w uid with
          | none => rfl
          | some u =>
              rw [Option.map_some', Option.map_some', if_pos (getUser_found_id hgu), happ]
        · intro x hx
          show getUser (updateUserProfile w uid none none none (some a)) x = getUser w x
          rw [getUser_updateUserProfile]
          cases hgu : getUser w x with
          | none => rfl
          | some u =>
              have hux : (u.id == x) = true := getUser_found_id hgu
              have : (u.id == uid) = false := by
                rw [beq_iff_eq] at hux
                simp [beq_eq_false_iff_ne, hux, hx]
              rw [Option.map_some', this]
              simp
        · show setSt (updateUserProfile w uid none none none (some a)).fsmState uid
              (some .profile_complete) uid = some .profile_complete
          simp [setSt]
        · intro x hx
          show setSt (updateUserProfile w uid none none none (some a)).fsmState uid
              (some .profile_complete) x = w.fsmState x
          simp [setSt, hx, updateUserProfile]
      · rw [if_neg hb, if_neg hb]
        exact ⟨rfl, fun x => rfl, rfl⟩

-- VIP non-interference (claim C9) ---------------------------------------------------

lemma idpres_vip (uid : Int) (b : Bool) (u : User) :
    ((fun u : User => if u.id == uid then { u with is_vip := b } else u) u).id = u.id := by
  by_cases h : (u.id == uid) = true <;> simp [h]

lemma getSession_setUserVip (w : World) (uid : Int) (b : Bool) (x : Int) :
    getSession (setUserVip w uid b) x = getSession w x := rfl

lemma filter_filter_map_congr (p q : User → Bool) (f : User → User) (l : List User)
    (hcase : ∀ u, (p (f u) = p u ∧ q (f u) = false ∧ q u = false) ∨ f u = u) :
    ((l.map f).filter p).filter q = (l.filter p).filter q := by
  induction l with
  | nil => rfl
  | cons u l ih =>
      rw [List.map_cons]
      rcases hcase u with ⟨hp, hqf, hq⟩ | hfu
      · cases hpu : p u
        · simp [List.filter_cons, hp, hpu, ih]
        · simp [List.filter_cons, hp, hpu, hqf, hq, ih]
      · rw [hfu]
        cases hpu : p u
        · simp [List.filter_cons, hpu, ih]
        · cases hqu : q u <;> simp [List.filter_cons, hpu, hqu, ih]

lemma potentialPartners_setUserVip (w : World) (uid : Int) (b : Bool) :
    potentialPartners (setUserVip w uid b) uid = potentialPartners w uid := by
  unfold potentialPartners getActiveUsers setUserVip
  dsimp only
  refine filter_filter_map_congr _ _ _ w.users ?_
  intro u
  by_cases h : (u.id == uid) = true
  · left
    refine ⟨?_, ?_, ?_⟩
    · rw [if_pos h]
    · rw [if_pos h]
      show (({ u with is_vip := b } : User).id != uid
          && (getSession (setUserVip w uid b) ({ u with is_vip := b } : User).id).isNone) = false
      rw [bne]
      show (!(u.id == uid) && _) = false
      rw [h]
      rfl
    · show (u.id != uid && (getSession (setUserVip w uid b) u.id).isNone) = false
      rw [bne, h]
      rfl
  · right
    rw [if_neg h]

/-- C9: the requester's VIP flag has no effect on matchmaking — flipping it
changes neither the candidate list, nor the session store after `/find`, nor
the notifications, nor any cursor (the `is_vip` branch of `cmd_find` is
`pass`). -/
theorem vip_flag_no_effect (w : World) (uid chat : Int) (b : Bool) (r : Nat) :
    potentialPartners (setUserVip w uid b) uid = potentialPartners w uid
    ∧ (cmdFind (setUserVip w uid b) uid chat r).1.sessions
        = (cmdFind w uid chat r).1.sessions
    ∧ (cmdFind (setUserVip w uid b) uid chat r).2 = (cmdFind w uid chat r).2
    ∧ ∀ x, (cmdFind (setUserVip w uid b) uid chat r).1.fsmState x
        = (cmdFind w uid chat r).1.fsmState x := by
  have hpp := potentialPartners_setUserVip w uid b
  have hgu : getUser (setUserVip w uid b) uid
      = (getUser w uid).map (fun u => if u.id == uid then { u with is_vip := b } else u) := by
    unfold getUser setUserVip
    dsimp only
    exact find?_map_id_pres w.users _ (fun u => idpres_vip uid b u) uid
  refine ⟨hpp, ?_, ?_, ?_⟩
  · unfold cmdFind
    rw [hgu]
    cases hg : getUser w uid with
    | none => rfl
    | some u =>
        have hid : (u.id == uid) = true := getUser_found_id hg
        simp only [Option.map_some', if_pos hid]
        simp only [getSession_setUserVip, hpp]
        split_ifs <;> try rfl
        cases hq : (potentialPartners w uid).get? (r % (potentialPartners w uid).length) <;> rfl
  · unfold cmdFind
    rw [hgu]
    cases hg : getUser w uid with
    | none => rfl
    | some u =>
        have hid : (u.id == uid) = true := getUser_found_id hg
        simp only [Option.map_some', if_pos hid]
        simp only [getSession_setUserVip, hpp]
        split_ifs <;> try rfl
        cases hq : (potentialPartners w uid).get? (r % (potentialPartners w uid).length) <;> rfl
  · intro x
    unfold cmdFind
    rw [hgu]
    cases hg : getUser w uid with
    | none => rfl
    | some u =>
        have hid : (u.id == uid) = true := getUser_found_id hg
        simp only [Option.map_some', if_pos hid]
        simp only [getSession_setUserVip, hpp]
        split_ifs <;> try rfl
        cases hq : (potentialPartners w uid).get? (r % (potentialPartners w uid).length) <;> rfl

-- Onboarding order (claim C7) -------------------------------------------------------

lemma cursorOK_congr {w w' : World} {uid : Int}
    (hst : w'.fsmState uid = w.fsmState uid) (hgu : getUser w' uid = getUser w uid)
    (h : cursorOK w uid) : cursorOK w' uid := by
  unfold cursorOK at h ⊢
  rw [hst, hgu]
  exact h

lemma cursorOK_congr_map {w w' : World} {uid : Int} (f : User → User)
    (hst : w'.fsmState uid = w.fsmState uid)
    (hgu : getUser w' uid = (getUser w uid).map f)
    (hff : ∀ u, (f u).language = u.language ∧ (f u).gender = u.gender
        ∧ (f u).continent = u.continent ∧ (f u).age = u.age)
    (h : cursorOK w uid) : cursorOK w' uid := by
  unfold cursorOK at h ⊢
  rw [hst, hgu]
  cases hw : w.fsmState uid with
  | none => trivial
  | some st =>
      rw [hw] at h
      cases st with
      | language =>
          obtain ⟨u, hu⟩ := h
          exact ⟨f u, by rw [hu]; rfl⟩
      | gender =>
          obtain ⟨u, hu, h1⟩ := h
          exact ⟨f u, by rw [hu]; rfl, by rw [(hff u).1]; exact h1⟩
      | continent =>
          obtain ⟨u, hu, h1, h2⟩ := h
          exact ⟨f u, by rw [hu]; rfl, by rw [(hff u).1]; exact h1,
            by rw [(hff u).2.1]; exact h2⟩
      | age =>
          obtain ⟨u, hu, h1, h2, h3⟩ := h
          exact ⟨f u, by rw [hu]; rfl, by rw [(hff u).1]; exact h1,
            by rw [(hff u).2.1]; exact h2, by rw [(hff u).2.2.1]; exact h3⟩
      | profile_complete =>
          obtain ⟨u, hu, h1, h2, h3, h4⟩ := h
          exact ⟨f u, by rw [hu]; rfl, by rw [(hff u).1]; exact h1,
            by rw [(hff u).2.1]; exact h2, by rw [(hff u).2.2.1]; exact h3,
            by rw [(hff u).2.2.2]; exact h4⟩
      | in_session =>
          obtain ⟨u, hu, h1, h2, h3, h4⟩ := h
          exact ⟨f u, by rw [hu]; rfl, by rw [(hff u).1]; exact h1,
            by rw [(hff u).2.1]; exact h2, by rw [(hff u).2.2.1]; exact h3,
            by rw [(hff u).2.2.2]; exact h4⟩

lemma cursorOK_all_of (w' w : World) (uid : Int)
    (hgu : ∀ x, x ≠ uid → getUser w' x = getUser w x)
    (hst : ∀ x, x ≠ uid → w'.fsmState x = w.fsmState x)
    (hcur : cursorOK w' uid)
    (h : ∀ x, cursorOK w x) : ∀ x, cursorOK w' x := by
  intro x
  by_cases hx : x = uid
  · subst hx
    exact hcur
  · exact cursorOK_congr (hst x hx) (hgu x hx) (h x)

lemma find?_eq_of_mem_unique {l : List User} {v : User} {x : Int}
    (hdis : idsDistinct l) (hv : v ∈ l) (hid : (v.id == x) = true) :
    l.find? (fun u => u.id == x) = some v := by
  induction l with
  | nil => cases hv
  | cons a l ih =>
      obtain ⟨ha, hl⟩ := List.pairwise_cons.mp hdis
      rcases List.mem_cons.mp hv with rfl | hv'
      · rw [List.find?_cons, hid]
      · have hane : a.id ≠ x := by
          rw [beq_iff_eq] at hid
          rw [← hid]
          exact ha v hv'
        have hax : (a.id == x) = false := by
          simpa [beq_eq_false_iff_ne] using hane
        rw [List.find?_cons, hax]
        exact ih hl hv'

lemma getUser_createUser_ne (w : World) (uid : Int) (un : String) {x : Int} (hx : x ≠ uid) :
    getUser (createUser w uid un) x = getUser w x := by
  unfold createUser
  split
  · rfl
  · unfold getUser
    dsimp only
    rw [List.find?_append]
    cases hg : w.users.find? (fun u => u.id == x) with
    | some u => rfl
    | none =>
        have : (uid == x) = false := by
          simpa [beq_eq_false_iff_ne] using fun hh => hx hh.symm
        simp [List.find?_cons, this]

lemma getUser_createUser_self (w : World) (uid : Int) (un : String) :
    ∃ u, getUser (createUser w uid un) uid = some u := by
  unfold createUser
  split
  case isTrue hany =>
      obtain ⟨u, hu, hp⟩ := List.any_eq_true.mp hany
      have h1 : (w.users.find? (fun v => v.id == uid)).isSome = true :=
        List.find?_isSome.mpr ⟨u, hu, hp⟩
      obtain ⟨v, hv⟩ := Option.isSome_iff_exists.mp h1
      exact ⟨v, hv⟩
  case isFalse hany =>
      unfold getUser
      dsimp only
      rw [List.find?_append]
      have hnone : w.users.find? (fun u => u.id == uid) = none := by
        rw [List.find?_eq_none]
        intro x hx hpx
        exact hany (List.any_eq_true.mpr ⟨x, hx, hpx⟩)
      rw [hnone]
      refine ⟨⟨uid, un, none, none, none, none, false, none, false⟩, ?_⟩
      simp [List.find?_cons]

lemma getUser_update_ne (w : World) (uid : Int) (l g c : Option String) (a : Option Int)
    {x : Int} (hx : x ≠ uid) :
    getUser (updateUserProfile w uid l g c a) x = getUser w x := by
  rw [getUser_updateUserProfile]
  cases hgu : getUser w x with
  | none => rfl
  | some u =>
      have hux : (u.id == x) = true := getUser_found_id hgu
      have hne : (u.id == uid) = false := by
        rw [beq_iff_eq] at hux
        simp [beq_eq_false_iff_ne, hux, hx]
      rw [Option.map_some', hne]
      simp

lemma createUser_eq_of_found {w : World} {uid : Int} (un : String) {u : User}
    (hg : getUser w uid = some u) : createUser w uid un = w := by
  unfold createUser
  rw [if_pos]
  unfold getUser at hg
  exact List.any_eq_true.mpr
    ⟨u, List.mem_of_find?_eq_some hg, @List.find?_some _ (fun v : User => v.id == uid) u w.users hg⟩

lemma fst_cmdProfile (w : World) (uid chat : Int) : (cmdProfile w uid chat).1 = w := by
  unfold cmdProfile
  split <;> rfl

lemma fst_cmdStats (adminId : Int) (w : World) (uid chat : Int) :
    (cmdStats adminId w uid chat).1 = w := by
  unfold cmdStats
  split_ifs <;> rfl

lemma onboardInv_mapUsers (w : World) (f : User → User)
    (hfid : ∀ u, (f u).id = u.id)
    (hff : ∀ u, (f u).language = u.language ∧ (f u).gender = u.gender
        ∧ (f u).continent = u.continent ∧ (f u).age = u.age)
    (h : OnboardInv w) : OnboardInv { w with users := w.users.map f } := by
  obtain ⟨hdis, hchain, hcur⟩ := h
  refine ⟨?_, ?_, ?_⟩
  · unfold idsDistinct at hdis ⊢
    show (w.users.map f).Pairwise _
    exact List.Pairwise.map f (fun a b hab => by rw [hfid a, hfid b]; exact hab) hdis
  · intro u' hu'
    obtain ⟨v, hv, rfl⟩ := List.mem_map.mp hu'
    obtain ⟨h1, h2, h3⟩ := hchain v hv
    unfold fieldChain
    rw [(hff v).1, (hff v).2.1, (hff v).2.2.1, (hff v).2.2.2]
    exact ⟨h1, h2, h3⟩
  · intro x
    have hst : ({ w with users := w.users.map f } : World).fsmState x = w.fsmState x := rfl
    have hgu : getUser { w with users := w.users.map f } x = (getUser w x).map f := by
      unfold getUser
      dsimp only
      exact find?_map_id_pres w.users f hfid x
    exact cursorOK_congr_map f hst hgu hff (hcur x)

lemma onboardInv_banUser {w : World} (n : Int) (h : OnboardInv w) :
    OnboardInv (banUser w n) := by
  unfold banUser
  refine onboardInv_mapUsers w _ ?_ ?_ h
  · intro u
    by_cases hu : (u.id == n) = true <;> simp [hu]
  · intro u
    by_cases hu : (u.id == n) = true <;> simp [hu]

lemma onboardInv_unbanUser {w : World} (n : Int) (h : OnboardInv w) :
    OnboardInv (unbanUser w n) := by
  unfold unbanUser
  refine onboardInv_mapUsers w _ ?_ ?_ h
  · intro u
    by_cases hu : (u.id == n) = true <;> simp [hu]
  · intro u
    by_cases hu : (u.id == n) = true <;> simp [hu]

lemma onboardInv_setVipStatus {w : World} (n months : Int) (h : OnboardInv w) :
    OnboardInv (setVipStatus w n months) := by
  unfold setVipStatus
  refine onboardInv_mapUsers w _ ?_ ?_ h
  · intro u
    by_cases hu : (u.id == n) = true <;> simp [hu]
  · intro u
    by_cases hu : (u.id == n) = true <;> simp [hu]

lemma onboardInv_cmdBan {adminId : Int} {w : World} {uid chat : Int} {t : String}
    (h : OnboardInv w) : OnboardInv (cmdBan adminId w uid chat t).1 := by
  unfold cmdBan
  split_ifs
  · exact h
  · split
    · exact h
    · split
      · exact h
      · exact onboardInv_banUser _ h

lemma onboardInv_cmdUnban {adminId : Int} {w : World} {uid chat : Int} {t : String}
    (h : OnboardInv w) : OnboardInv (cmdUnban adminId w uid chat t).1 := by
  unfold cmdUnban
  split_ifs
  · exact h
  · split
    · exact h
    · split
      · exact h
      · exact onboardInv_unbanUser _ h

lemma onboardInv_cmdVip {adminId : Int} {w : World} {uid chat : Int} {t : String}
    (h : OnboardInv w) : OnboardInv (cmdVip adminId w uid chat t).1 := by
  unfold cmdVip
  dsimp only
  split_ifs
  · exact h
  · split
    · split
      · exact onboardInv_setVipStatus _ _ h
      · exact h
    · exact h

lemma onboardInv_createUser {w : World} (uid : Int) (un : String) (h : OnboardInv w) :
    OnboardInv (createUser w uid un) := by
  obtain ⟨hdis, hchain, hcur⟩ := h
  by_cases hg : ∃ u, getUser w uid = some u
  · obtain ⟨u, hu⟩ := hg
    rw [createUser_eq_of_found un hu]
    exact ⟨hdis, hchain, hcur⟩
  · have hnone : getUser w uid = none := by
      cases hgu : getUser w uid with
      | none => rfl
      | some u => exact absurd ⟨u, hgu⟩ hg
    have hany : (w.users.any fun u => u.id == uid) = false := by
      rw [Bool.eq_false_iff]
      intro hc
      obtain ⟨u, hu, hp⟩ := List.any_eq_true.mp hc
      have : (w.users.find? (fun v => v.id == uid)).isSome = true :=
        List.find?_isSome.mpr ⟨u, hu, hp⟩
      unfold getUser at hnone
      rw [hnone] at this
      cases this
    have husers : (createUser w uid un).users
        = w.users ++ [⟨uid, un, none, none, none, none, false, none, false⟩] := by
      unfold createUser
      rw [if_neg (by simp [hany])]
    have hfsm : (createUser w uid un).fsmState = w.fsmState := by
      unfold createUser
      rw [if_neg (by simp [hany])]
    refine ⟨?_, ?_, ?_⟩
    · unfold idsDistinct at hdis ⊢
      rw [husers, List.pairwise_append]
      refine ⟨hdis, List.pairwise_singleton _ _, ?_⟩
      intro a ha b hb
      have hb' : b = ⟨uid, un, none, none, none, none, false, none, false⟩ := by
        simpa using hb
      rw [hb']
      intro hc
      have : (a.id == uid) = true := by simpa using hc
      rw [Bool.eq_false_iff] at hany
      exact hany (List.any_eq_true.mpr ⟨a, ha, this⟩)
    · intro u hu
      rw [husers] at hu
      rcases List.mem_append.mp hu with h' | h'
      · exact hchain u h'
      · have : u = ⟨uid, un, none, none, none, none, false, none, false⟩ := by simpa using h'
        rw [this]
        simp [fieldChain, truthyS, truthyI]
    · intro x
      by_cases hx : x = uid
      · subst hx
        unfold cursorOK
        rw [hfsm]
        cases hst : w.fsmState x with
        | none => trivial
        | some st =>
            exfalso
            have hcx := hcur x
            unfold cursorOK at hcx
            rw [hst] at hcx
            cases st with
            | language =>
                obtain ⟨u, hu⟩ := hcx
                rw [hu] at hnone
                cases hnone
            | gender =>
                obtain ⟨u, hu, _⟩ := hcx
                rw [hu] at hnone
                cases hnone
            | continent =>
                obtain ⟨u, hu, _, _⟩ := hcx
                rw [hu] at hnone
                cases hnone
            | age =>
                obtain ⟨u, hu, _, _, _⟩ := hcx
                rw [hu] at hnone
                cases hnone
            | profile_complete =>
                obtain ⟨u, hu, _⟩ := hcx
                rw [hu] at hnone
                cases hnone
            | in_session =>
                obtain ⟨u, hu, _⟩ := hcx
                rw [hu] at hnone
                cases hnone
      · refine cursorOK_congr ?_ ?_ (hcur x)
        · rw [hfsm]
        · exact getUser_createUser_ne w uid un hx

lemma cursorOK_of_state_none {w' : World} {uid : Int} (hst : w'.fsmState uid = none) :
    cursorOK w' uid := by
  unfold cursorOK
  rw [hst]
  trivial

lemma cursorOK_intro_language {w' : World} {uid : Int} (hst : w'.fsmState uid = some .language)
    (h : ∃ u, getUser w' uid = some u) : cursorOK w' uid := by
  unfold cursorOK
  rw [hst]
  exact h

lemma cursorOK_intro_gender {w' : World} {uid : Int} (hst : w'.fsmState uid = some .gender)
    (h : ∃ u, getUser w' uid = some u ∧ truthyS u.language = true) : cursorOK w' uid := by
  unfold cursorOK
  rw [hst]
  exact h

lemma cursorOK_intro_continent {w' : World} {uid : Int}
    (hst : w'.fsmState uid = some .continent)
    (h : ∃ u, getUser w' uid = some u ∧ truthyS u.language = true ∧ truthyS u.gender = true) :
    cursorOK w' uid := by
  unfold cursorOK
  rw [hst]
  exact h

lemma cursorOK_intro_age {w' : World} {uid : Int} (hst : w'.fsmState uid = some .age)
    (h : ∃ u, getUser w' uid = some u ∧ truthyS u.language = true ∧ truthyS u.gender = true
        ∧ truthyS u.continent = true) : cursorOK w' uid := by
  unfold cursorOK
  rw [hst]
  exact h

lemma cursorOK_intro_complete {w' : World} {uid : Int}
    (hst : w'.fsmState uid = some .profile_complete)
    (h : ∃ u, getUser w' uid = some u ∧ profileFull u) : cursorOK w' uid := by
  unfold cursorOK
  rw [hst]
  exact h

lemma cursorOK_intro_in_session {w' : World} {uid : Int}
    (hst : w'.fsmState uid = some .in_session)
    (h : ∃ u, getUser w' uid = some u ∧ profileFull u) : cursorOK w' uid := by
  unfold cursorOK
  rw [hst]
  exact h

lemma idsDistinct_updateUserProfile (w : World) (uid : Int) (l g c : Option String)
    (a : Option Int) (hdis : idsDistinct w.users) :
    idsDistinct (updateUserProfile w uid l g c a).users := by
  unfold updateUserProfile idsDistinct
  dsimp only
  unfold idsDistinct at hdis
  refine List.Pairwise.map _ (fun x y hxy => ?_) hdis
  by_cases h1 : (x.id == uid) = true <;> by_cases h2 : (y.id == uid) = true <;>
    simp [h1, h2, applyProfileUpdates_id, hxy]

lemma chain_update_of (w : World) (uid : Int) (l g c : Option String) (a : Option Int)
    (hdis : idsDistinct w.users) (hchain : ∀ u ∈ w.users, fieldChain u)
    (hupd : ∀ u, getUser w uid = some u → fieldChain (applyProfileUpdates l g c a u)) :
    ∀ u' ∈ (updateUserProfile w uid l g c a).users, fieldChain u' := by
  intro u' hu'
  unfold updateUserProfile at hu'
  dsimp only at hu'
  obtain ⟨v, hv, rfl⟩ := List.mem_map.mp hu'
  by_cases hid : (v.id == uid) = true
  · have hg : getUser w uid = some v := by
      unfold getUser
      exact find?_eq_of_mem_unique hdis hv hid
    rw [if_pos hid]
    exact hupd v hg
  · rw [if_neg hid]
    exact hchain v hv

lemma onboardInv_processLanguage {w : World} {uid chat : Int} {data : String}
    (hst : w.fsmState uid = some .language)
    (hne : (splitChar '_' data).getD 1 "" ≠ "")
    (h : OnboardInv w) :
    OnboardInv (processLanguage w uid chat data).1 := by
  obtain ⟨hdis, hchain, hcur⟩ := h
  have hrow : ∃ u, getUser w uid = some u := by
    have hcx := hcur uid
    unfold cursorOK at hcx
    rw [hst] at hcx
    exact hcx
  obtain ⟨u, hu⟩ := hrow
  have htl : truthyS (some ((splitChar '_' data).getD 1 "")) = true := by
    show ((splitChar '_' data).getD 1 "" != "") = true
    simpa [bne_iff_ne] using hne
  have happ : ∀ v : User,
      applyProfileUpdates (some ((splitChar '_' data).getD 1 "")) none none none v
        = { v with language := some ((splitChar '_' data).getD 1 "") } := by
    intro v
    unfold applyProfileUpdates
    dsimp only
    rw [htl]
    simp [truthyS, truthyI]
  unfold processLanguage
  dsimp only
  refine ⟨idsDistinct_updateUserProfile w uid _ _ _ _ hdis, ?_, ?_⟩
  · refine chain_update_of w uid _ _ _ _ hdis hchain ?_
    intro v hgv
    have hmem : v ∈ w.users := by
      unfold getUser at hgv
      exact List.mem_of_find?_eq_some hgv
    have hcv := hchain v hmem
    rw [happ v]
    unfold fieldChain at hcv ⊢
    exact ⟨hcv.1, hcv.2.1, fun _ => htl⟩
  · refine cursorOK_all_of _ w uid ?_ ?_ ?_ hcur
    · intro x hx
      exact getUser_update_ne w uid _ _ _ _ hx
    · intro x hx
      show setSt _ uid (some .gender) x = w.fsmState x
      simp [setSt, hx, updateUserProfile]
    · refine cursorOK_intro_gender (by simp [setSt]) ?_
      refine ⟨{ u with language := some ((splitChar '_' data).getD 1 "") }, ?_, htl⟩
      show getUser (updateUserProfile w uid (some ((splitChar '_' data).getD 1 "")) none none none) uid = _
      rw [getUser_updateUserProfile, hu, Option.map_some', if_pos (getUser_found_id hu), happ u]

lemma onboardInv_processGender {w : World} {uid chat : Int} {data : String}
    (hst : w.fsmState uid = some .gender)
    (hne : (splitChar '_' data).getD 1 "" ≠ "")
    (h : OnboardInv w) :
    OnboardInv (processGender w uid chat data).1 := by
  obtain ⟨hdis, hchain, hcur⟩ := h
  have hrow : ∃ u, getUser w uid = some u ∧ truthyS u.language = true := by
    have hcx := hcur uid
    unfold cursorOK at hcx
    rw [hst] at hcx
    exact hcx
  obtain ⟨u, hu, hul⟩ := hrow
  have htg : truthyS (some ((splitChar '_' data).getD 1 "")) = true := by
    show ((splitChar '_' data).getD 1 "" != "") = true
    simpa [bne_iff_ne] using hne
  have happ : ∀ v : User,
      applyProfileUpdates none (some ((splitChar '_' data).getD 1 "")) none none v
        = { v with gender := some ((splitChar '_' data).getD 1 "") } := by
    intro v
    unfold applyProfileUpdates
    dsimp only
    rw [htg]
    simp [truthyS, truthyI]
  unfold processGender
  dsimp only
  refine ⟨idsDistinct_updateUserProfile w uid _ _ _ _ hdis, ?_, ?_⟩
  · refine chain_update_of w uid _ _ _ _ hdis hchain ?_
    intro v hgv
    have hmem : v ∈ w.users := by
      unfold getUser at hgv
      exact List.mem_of_find?_eq_some hgv
    have hcv := hchain v hmem
    have hvu : v = u := by
      rw [hgv] at hu
      exact Option.some_inj.mp hu
    rw [happ v]
    unfold fieldChain at hcv ⊢
    refine ⟨hcv.1, fun _ => htg, fun _ => ?_⟩
    show truthyS v.language = true
    rw [hvu]
    exact hul
  · refine cursorOK_all_of _ w uid ?_ ?_ ?_ hcur
    · intro x hx
      exact getUser_update_ne w uid _ _ _ _ hx
    · intro x hx
      show setSt _ uid (some .continent) x = w.fsmState x
      simp [setSt, hx, updateUserProfile]
    · refine cursorOK_intro_continent (by simp [setSt]) ?_
      refine ⟨{ u with gender := some ((splitChar '_' data).getD 1 "") }, ?_, hul, htg⟩
      show getUser (updateUserProfile w uid none (some ((splitChar '_' data).getD 1 "")) none none) uid = _
      rw [getUser_updateUserProfile, hu, Option.map_some', if_pos (getUser_found_id hu), happ u]

lemma onboardInv_processContinent {w : World} {uid chat : Int} {data : String}
    (hst : w.fsmState uid = some .continent)
    (hne : (splitChar '_' data).getD 1 "" ≠ "")
    (h : OnboardInv w) :
    OnboardInv (processContinent w uid chat data).1 := by
  obtain ⟨hdis, hchain, hcur⟩ := h
  have hrow : ∃ u, getUser w uid = some u ∧ truthyS u.language = true
      ∧ truthyS u.gender = true := by
    have hcx := hcur uid
    unfold cursorOK at hcx
    rw [hst] at hcx
    exact hcx
  obtain ⟨u, hu, hul, hug⟩ := hrow
  have htc : truthyS (some ((splitChar '_' data).getD 1 "")) = true := by
    show ((splitChar '_' data).getD 1 "" != "") = true
    simpa [bne_iff_ne] using hne
  have happ : ∀ v : User,
      applyProfileUpdates none none (some ((splitChar '_' data).getD 1 "")) none v
        = { v with continent := some ((splitChar '_' data).getD 1 "") } := by
    intro v
    unfold applyProfileUpdates
    dsimp only
    rw [htc]
    simp [truthyS, truthyI]
  unfold processContinent
  dsimp only
  refine ⟨idsDistinct_updateUserProfile w uid _ _ _ _ hdis, ?_, ?_⟩
  · refine chain_update_of w uid _ _ _ _ hdis hchain ?_
    intro v hgv
    have hmem : v ∈ w.users := by
      unfold getUser at hgv
      exact List.mem_of_find?_eq_some hgv
    have hcv := hchain v hmem
    have hvu : v = u := by
      rw [hgv] at hu
      exact Option.some_inj.mp hu
    rw [happ v]
    unfold fieldChain at hcv ⊢
    refine ⟨fun _ => htc, fun _ => ?_, hcv.2.2⟩
    show truthyS v.gender = true
    rw [hvu]
    exact hug
  · refine cursorOK_all_of _ w uid ?_ ?_ ?_ hcur
    · intro x hx
      exact getUser_update_ne w uid _ _ _ _ hx
    · intro x hx
      show setSt _ uid (some .age) x = w.fsmState x
      simp [setSt, hx, updateUserProfile]
    · refine cursorOK_intro_age (by simp [setSt]) ?_
      refine ⟨{ u with continent := some ((splitChar '_' data).getD 1 "") }, ?_, hul, hug, htc⟩
      show getUser (updateUserProfile w uid none none (some ((splitChar '_' data).getD 1 "")) none) uid = _
      rw [getUser_updateUserProfile, hu, Option.map_some', if_pos (getUser_found_id hu), happ u]

lemma onboardInv_processAge {w : World} {uid chat : Int} {t : String}
    (hst : w.fsmState uid = some .age)
    (h : OnboardInv w) :
    OnboardInv (processAge w uid chat t).1 := by
  obtain ⟨hdis, hchain, hcur⟩ := h
  have hrow : ∃ u, getUser w uid = some u ∧ truthyS u.language = true
      ∧ truthyS u.gender = true ∧ truthyS u.continent = true := by
    have hcx := hcur uid
    unfold cursorOK at hcx
    rw [hst] at hcx
    exact hcx
  obtain ⟨u, hu, hul, hug, huc⟩ := hrow
  unfold processAge
  cases hp : pyParseInt t with
  | none => exact ⟨hdis, hchain, hcur⟩
  | some a =>
      dsimp only
      split_ifs with hb
      · have hta : truthyI (some a) = true := by
          show (a != 0) = true
          simp only [bne_iff_ne, ne_eq]
          omega
        have happ : ∀ v : User,
            applyProfileUpdates none none none (some a) v = { v with age := some a } := by
          intro v
          unfold applyProfileUpdates
          dsimp only
          rw [hta]
          simp [truthyS, truthyI]
        refine ⟨idsDistinct_updateUserProfile w uid _ _ _ _ hdis, ?_, ?_⟩
        · refine chain_update_of w uid _ _ _ _ hdis hchain ?_
          intro v hgv
          have hmem : v ∈ w.users := by
            unfold getUser at hgv
            exact List.mem_of_find?_eq_some hgv
          have hcv := hchain v hmem
          have hvu : v = u := by
            rw [hgv] at hu
            exact Option.some_inj.mp hu
          rw [happ v]
          unfold fieldChain at hcv ⊢
          refine ⟨fun _ => ?_, hcv.2.1, hcv.2.2⟩
          show truthyS v.continent = true
          rw [hvu]
          exact huc
        · refine cursorOK_all_of _ w uid ?_ ?_ ?_ hcur
          · intro x hx
            exact getUser_update_ne w uid _ _ _ _ hx
          · intro x hx
            show setSt _ uid (some .profile_complete) x = w.fsmState x
            simp [setSt, hx, updateUserProfile]
          · refine cursorOK_intro_complete (by simp [setSt]) ?_
            refine ⟨{ u with age := some a }, ?_, hul, hug, huc, hta⟩
            show getUser (updateUserProfile w uid none none none (some a)) uid = _
            rw [getUser_updateUserProfile, hu, Option.map_some',
              if_pos (getUser_found_id hu), happ u]
      · exact ⟨hdis, hchain, hcur⟩

lemma onboardInv_cmdStart {w : World} (uid : Int) (un : Option String) (chat : Int)
    (h : OnboardInv w) : OnboardInv (cmdStart w uid un chat).1 := by
  have h1 := onboardInv_createUser uid (pyOrU un ("id_" ++ toString uid)) h
  obtain ⟨hdis1, hchain1, hcur1⟩ := h1
  unfold cmdStart
  dsimp only
  cases hg : getUser (createUser w uid (pyOrU un ("id_" ++ toString uid))) uid with
  | none =>
      obtain ⟨u, hu⟩ := getUser_createUser_self w uid (pyOrU un ("id_" ++ toString uid))
      rw [hg] at hu
      cases hu
  | some u =>
      dsimp only
      split_ifs with hban hfull
      · exact ⟨hdis1, hchain1, hcur1⟩
      · refine ⟨hdis1, hchain1, ?_⟩
        refine cursorOK_all_of _ (createUser w uid (pyOrU un ("id_" ++ toString uid))) uid
          ?_ ?_ ?_ hcur1
        · intro x hx
          rfl
        · intro x hx
          show setSt _ uid (some .profile_complete) x = _
          simp [setSt, hx]
        · refine cursorOK_intro_complete (by simp [setSt]) ⟨u, hg, ?_⟩
          rw [Bool.and_eq_true, Bool.and_eq_true, Bool.and_eq_true] at hfull
          exact ⟨hfull.1.1.1, hfull.1.1.2, hfull.1.2, hfull.2⟩
      · refine ⟨hdis1, hchain1, ?_⟩
        refine cursorOK_all_of _ (createUser w uid (pyOrU un ("id_" ++ toString uid))) uid
          ?_ ?_ ?_ hcur1
        · intro x hx
          rfl
        · intro x hx
          show setSt _ uid (some .language) x = _
          simp [setSt, hx]
        · exact cursorOK_intro_language (by simp [setSt]) ⟨u, hg⟩

lemma onboardInv_cmdFind {w : World} (uid chat : Int) (r : Nat) (h : OnboardInv w) :
    OnboardInv (cmdFind w uid chat r).1 := by
  obtain ⟨hdis, hchain, hcur⟩ := h
  unfold cmdFind
  cases hg : getUser w uid with
  | none => exact ⟨hdis, hchain, hcur⟩
  | some u =>
      dsimp only
      split_ifs with hfull hsess
      · exact ⟨hdis, hchain, hcur⟩
      · exact ⟨hdis, hchain, hcur⟩
      · cases hq : (potentialPartners w uid).get? (r % (potentialPartners w uid).length) with
        | none => exact ⟨hdis, hchain, hcur⟩
        | some partner =>
            refine ⟨hdis, hchain, ?_⟩
            refine cursorOK_all_of _ w uid ?_ ?_ ?_ hcur
            · intro x hx
              rfl
            · intro x hx
              show setSt _ uid (some .in_session) x = _
              simp [setSt, hx, createSession]
            · refine cursorOK_intro_in_session (by simp [setSt]) ⟨u, hg, ?_⟩
              have hf : (truthyS u.language && truthyS u.gender && truthyS u.continent
                  && truthyI u.age) = true := by
                rcases hb : (truthyS u.language && truthyS u.gender && truthyS u.continent
                    && truthyI u.age) with _ | _
                · exact absurd (by rw [hb]; rfl) hfull
                · rfl
              rw [Bool.and_eq_true, Bool.and_eq_true, Bool.and_eq_true] at hf
              exact ⟨hf.1.1.1, hf.1.1.2, hf.1.2, hf.2⟩

lemma onboardInv_cmdStop {w : World} (uid chat : Int) (h : OnboardInv w) :
    OnboardInv (cmdStop w uid chat).1 := by
  obtain ⟨hdis, hchain, hcur⟩ := h
  unfold cmdStop
  split
  case _ s w1 heq =>
      have hw1 : w1.users = w.users ∧ w1.fsmState = w.fsmState := by
        unfold endSession at heq
        split at heq
        · cases heq
          exact ⟨rfl, rfl⟩
        · cases heq
      refine ⟨by rw [hw1.1]; exact hdis, by rw [hw1.1]; exact hchain, ?_⟩
      refine cursorOK_all_of _ w uid ?_ ?_ ?_ hcur
      · intro x hx
        show getUser w1 x = getUser w x
        unfold getUser
        rw [hw1.1]
      · intro x hx
        show setSt (setSt w1.fsmState uid (some .profile_complete)) uid none x = w.fsmState x
        simp [setSt, hx, hw1.2]
      · exact cursorOK_of_state_none (by simp [setSt])
  case _ w1 heq =>
      have hw1 : w1 = w := by
        unfold endSession at heq
        split at heq
        · cases heq
        · cases heq
          rfl
      rw [hw1]
      exact ⟨hdis, hchain, hcur⟩

set_option maxHeartbeats 1600000 in
lemma onboardInv_dispatch (adminId tg : Int) {w : World} (e : Event) (r : Nat)
    (hgood : goodEvent e = true) (h : OnboardInv w) :
    OnboardInv (dispatch adminId tg w e r).1 := by
  unfold dispatch
  cases e with
  | callback uid chat data =>
      have hdata : goodData data = true := hgood
      dsimp only
      split_ifs with h1 h2 h3
      · rw [Bool.and_eq_true] at h1
        have hst : w.fsmState uid = some .language := of_decide_eq_true h1.1
        have hne : (splitChar '_' data).getD 1 "" ≠ "" := by
          unfold goodData at hdata
          rw [h1.2] at hdata
          simpa [bne_iff_ne] using hdata
        exact onboardInv_processLanguage hst hne h
      · rw [Bool.and_eq_true] at h2
        have hst : w.fsmState uid = some .gender := of_decide_eq_true h2.1
        have hne : (splitChar '_' data).getD 1 "" ≠ "" := by
          unfold goodData at hdata
          rw [h2.2] at hdata
          simpa [bne_iff_ne] using hdata
        exact onboardInv_processGender hst hne h
      · rw [Bool.and_eq_true] at h3
        have hst : w.fsmState uid = some .continent := of_decide_eq_true h3.1
        have hne : (splitChar '_' data).getD 1 "" ≠ "" := by
          unfold goodData at hdata
          rw [h3.2] at hdata
          simpa [bne_iff_ne] using hdata
        exact onboardInv_processContinent hst hne h
      · exact h
  | msg uid un content msgId chat =>
      dsimp only
      cases content with
      | text t =>
          dsimp only
          split_ifs with h1 h2 h3 h4 h5 h6 h7 h8 h9 h10 h11
          · exact onboardInv_cmdStart uid un chat h
          · exact onboardInv_processAge h2 h
          · rw [fst_cmdProfile]
            exact h
          · exact h
          · exact onboardInv_cmdFind uid chat r h
          · exact onboardInv_cmdStop uid chat h
          · exact onboardInv_cmdBan h
          · exact onboardInv_cmdUnban h
          · exact onboardInv_cmdVip h
          · rw [fst_cmdStats]
            exact h
          · rw [fst_handleSessionMessages]
            exact h
          · exact h
      | photo f c =>
          dsimp only
          split_ifs <;> first | (rw [fst_handleSessionMessages]; exact h) | exact h
      | video f c =>
          dsimp only
          split_ifs <;> first | (rw [fst_handleSessionMessages]; exact h) | exact h
      | document f c =>
          dsimp only
          split_ifs <;> first | (rw [fst_handleSessionMessages]; exact h) | exact h
      | voice f c =>
          dsimp only
          split_ifs <;> first | (rw [fst_handleSessionMessages]; exact h) | exact h
      | audio f c =>
          dsimp only
          split_ifs <;> first | (rw [fst_handleSessionMessages]; exact h) | exact h
      | sticker f =>
          dsimp only
          split_ifs <;> first | (rw [fst_handleSessionMessages]; exact h) | exact h
      | animation f c =>
          dsimp only
          split_ifs <;> first | (rw [fst_handleSessionMessages]; exact h) | exact h
      | videoNote f =>
          dsimp only
          split_ifs <;> first | (rw [fst_handleSessionMessages]; exact h) | exact h
      | contact p fn ln =>
          dsimp only
          split_ifs <;> first | (rw [fst_handleSessionMessages]; exact h) | exact h
      | location la lo =>
          dsimp only
          split_ifs <;> first | (rw [fst_handleSessionMessages]; exact h) | exact h
      | poll q os =>
          dsimp only
          split_ifs <;> first | (rw [fst_handleSessionMessages]; exact h) | exact h
      | venue la lo ti ad =>
          dsimp only
          split_ifs <;> first | (rw [fst_handleSessionMessages]; exact h) | exact h
      | other tag =>
          dsimp only
          split_ifs <;> first | (rw [fst_handleSessionMessages]; exact h) | exact h

lemma onboardInv_runEvents (adminId tg : Int) {w : World} (es : List (Event × Nat))
    (hes : ∀ e ∈ es, goodEvent e.1 = true) (h : OnboardInv w) :
    OnboardInv (runEvents adminId tg w es) := by
  induction es generalizing w with
  | nil => exact h
  | cons e es ih =>
      exact ih (fun x hx => hes x (List.mem_cons_of_mem e hx))
        (onboardInv_dispatch adminId tg e.1 e.2 (hes e (List.mem_cons_self e es)) h)

/-- C7 (amended): provided every callback payload carries a nonempty code after
its recognised prefix — true of every keyboard-generated callback — onboarding
never skips a step: starting from any user table with distinct ids whose rows
are populated bottom-up, after any event sequence every row is still populated
bottom-up (age only after continent, continent only after gender, gender only
after language), and whenever a cursor is at `profile_complete` or `in_session`
that user's row has language, gender, continent and age all set.  A callback
whose payload is a bare prefix (`lang_`) breaks the unamended claim — see the
counterexample. -/
theorem onboarding_never_skips (adminId tg : Int) (users : List User)
    (hdis : idsDistinct users) (hchain : ∀ u ∈ users, fieldChain u)
    (es : List (Event × Nat)) (hes : ∀ e ∈ es, goodEvent e.1 = true) :
    (∀ u ∈ (runEvents adminId tg (initWorld users) es).users, fieldChain u)
    ∧ ∀ uid, ((runEvents adminId tg (initWorld users) es).fsmState uid
          = some .profile_complete
        ∨ (runEvents adminId tg (initWorld users) es).fsmState uid = some .in_session) →
      ∃ u, getUser (runEvents adminId tg (initWorld users) es) uid = some u
        ∧ profileFull u := by
  have h0 : OnboardInv (initWorld users) := by
    refine ⟨hdis, hchain, ?_⟩
    intro x
    exact cursorOK_of_state_none rfl
  obtain ⟨hd, hc, hcur⟩ := onboardInv_runEvents adminId tg es hes h0
  refine ⟨hc, ?_⟩
  intro uid hst
  rcases hst with hst | hst
  · have hx := hcur uid
    unfold cursorOK at hx
    rw [hst] at hx
    exact hx
  · have hx := hcur uid
    unfold cursorOK at hx
    rw [hst] at hx
    exact hx

/-- Witness for `onboarding_never_skips`: a fresh user completes the four steps
with well-formed callbacks. -/
theorem onboarding_never_skips_witness :
    (idsDistinct ([] : List User) ∧ (∀ u ∈ ([] : List User), fieldChain u)
      ∧ ∀ e ∈ demoGoodEvs, goodEvent e.1 = true)
    ∧ ((∀ u ∈ (runEvents demoAdminId demoGroupId (initWorld []) demoGoodEvs).users,
          fieldChain u)
       ∧ ∀ uid, ((runEvents demoAdminId demoGroupId (initWorld []) demoGoodEvs).fsmState uid
             = some .profile_complete
           ∨ (runEvents demoAdminId demoGroupId (initWorld []) demoGoodEvs).fsmState uid
             = some .in_session) →
         ∃ u, getUser (runEvents demoAdminId demoGroupId (initWorld []) demoGoodEvs) uid
             = some u ∧ profileFull u) :=
  ⟨⟨List.Pairwise.nil, by simp, by decide⟩,
   onboarding_never_skips demoAdminId demoGroupId [] List.Pairwise.nil (by simp)
     demoGoodEvs (by decide)⟩

-- Frame effect of /start (claim C10) ------------------------------------------------

/-- C10: issuing `/start` for a user who already has a stored row leaves the
whole users table unchanged — the upsert inserts only when no row exists and
`cmd_start` mutates no profile field. -/
theorem start_preserves_profile (adminId tg : Int) (w : World) (uid : Int)
    (un : Option String) (mid chat : Int) (r : Nat)
    (h : ∃ u ∈ w.users, u.id = uid) :
    (dispatch adminId tg w (.msg uid un (.text "/start") mid chat) r).1.users = w.users := by
  have hcmd : matchesCommand "/start" "start" = true := by decide
  unfold dispatch
  dsimp only
  rw [if_pos hcmd]
  unfold cmdStart
  dsimp only
  have hany : w.users.any (fun u => u.id == uid) = true := by
    rcases h with ⟨u, hu, hid⟩
    exact List.any_eq_true.mpr ⟨u, hu, by simp [hid]⟩
  have hcu : createUser w uid (pyOrU un ("id_" ++ toString uid)) = w := by
    unfold createUser
    rw [if_pos hany]
  rw [hcu]
  split <;> (try split_ifs) <;> rfl

/-- Witness for `start_preserves_profile`: user 1 already has a row. -/
theorem start_preserves_profile_witness :
    (∃ u ∈ (initWorld [demoUserA, demoUserB]).users, u.id = 1)
    ∧ (dispatch demoAdminId demoGroupId (initWorld [demoUserA, demoUserB])
        (.msg 1 (some "alice") (.text "/start") 11 1) 0).1.users
      = (initWorld [demoUserA, demoUserB]).users :=
  ⟨by decide,
   start_preserves_profile demoAdminId demoGroupId (initWorld [demoUserA, demoUserB]) 1
     (some "alice") 11 1 0 (by decide)⟩

end GroqBot
